import Mathlib

/-!
Verification of the backtesting core against its specification.

The development shallowly embeds the two core source files:

* `src/strategies.py` — the per-bar strategy state machine `MultiOrderRSI`
  (its `next` method), which opens and closes overlapping positions from a
  single indicator value per bar;
* `src/data_utils.py` — the metrics stage `compute_sharpe_metrics`, which
  turns the closed-trade ledger into a filled daily-return series and
  annualised volatility / Sharpe figures.

Modelling conventions: prices, indicator values and cash are rationals
(idealising Python floats by exact arithmetic); bar timestamps are integers
counting minutes from an epoch, so the calendar date of a timestamp is its
floor-division by 1440.  The IEEE-754 special values that the metrics stage
can actually produce (NaN from a one-sample standard deviation, signed
infinity from division by a zero standard deviation) are represented
explicitly by the carrier `FVal`.  Python-level exceptions are modelled by
`Except`.
-/

namespace Backtest

/-- Side of a position: the source stores it as the string field
`"type"` with values `"long"` / `"short"`. -/
inductive Side where
  | long : Side
  | short : Side
deriving DecidableEq, Repr

/-- One entry of `self.open_positions` / `self.closed_positions` in
`MultiOrderRSI`: the dict built at lines 36–44 / 50–59 of
`src/strategies.py`, with the exit fields (lines 79–88) optional because
they are written only when the position closes.  The backtrader order
handles (`order_ref`, `exit_order`) are opaque framework objects with no
bearing on the core state and are not modelled. -/
structure Position where
  side : Side
  entry_rsi : ℚ
  entry_price : ℚ
  entry_time : ℤ
  exit_rsi : Option ℚ := none
  exit_time : Option ℤ := none
  exit_price : Option ℚ := none
  pnl : Option ℚ := none
deriving DecidableEq, Repr

/-- The threshold parameters of `MultiOrderRSI.params` (the RSI lookback
period lives in the indicator, which the engine consumes as an opaque
per-bar scalar). -/
structure Params where
  buy_rsi : ℚ
  sell_rsi : ℚ
  exit_buy_rsi : ℚ
  exit_sell_rsi : ℚ
deriving DecidableEq, Repr

/-- The default thresholds of `MultiOrderRSI.params`. -/
def defaultParams : Params :=
  { buy_rsi := 30, sell_rsi := 70, exit_buy_rsi := 70, exit_sell_rsi := 30 }

/-- The engine's mutable state: the two lists `self.open_positions` and
`self.closed_positions` of `MultiOrderRSI.__init__`. -/
structure EngineState where
  open_positions : List Position
  closed_positions : List Position
deriving DecidableEq, Repr

/-- The dict appended by the entry steps of `MultiOrderRSI.next`
(lines 36–44 for longs, 50–59 for shorts). -/
def mkEntry (side : Side) (rsi price : ℚ) (now : ℤ) : Position :=
  { side := side, entry_rsi := rsi, entry_price := price, entry_time := now }

/-- The exit test of the scan at lines 66–75 of `src/strategies.py`: a long
is marked when `rsi > exit_buy_rsi`, a short when `rsi < exit_sell_rsi`. -/
def exitCond (p : Params) (rsi : ℚ) (pos : Position) : Bool :=
  (pos.side == Side.long && decide (rsi > p.exit_buy_rsi)) ||
  (pos.side == Side.short && decide (rsi < p.exit_sell_rsi))

/-- The close step at lines 78–88 of `src/strategies.py`: write the exit
fields from the current bar and compute the realized pnl by side. -/
def closePos (rsi price : ℚ) (now : ℤ) (pos : Position) : Position :=
  { pos with
      exit_rsi := some rsi
      exit_time := some now
      exit_price := some price
      pnl := some (if pos.side = Side.long then price - pos.entry_price
                   else pos.entry_price - price) }

/-- The open-position list as it stands when the exit scan of
`MultiOrderRSI.next` begins: `self.open_positions` after the two entry
steps (lines 34–59 of `src/strategies.py`) have appended their dicts. -/
def scanList (p : Params) (rsi price : ℚ) (now : ℤ) (s : EngineState) : List Position :=
  let o1 := if rsi < p.buy_rsi then s.open_positions ++ [mkEntry Side.long rsi price now]
            else s.open_positions
  if rsi > p.sell_rsi then o1 ++ [mkEntry Side.short rsi price now] else o1

/-- `MultiOrderRSI.next` (lines 26–91 of `src/strategies.py`).  Steps in
source order: (1) if `rsi < buy_rsi` append a long entry, (2) if
`rsi > sell_rsi` append a short entry (together: `scanList`), (3) scan all
open positions — including the ones just appended — collecting those whose
exit condition holds into `positions_to_close`, (4) for each collected
position write the exit fields, append it to `closed_positions` and remove
it from `open_positions`.  Step 4's append-in-scan-order plus
remove-the-scanned-object is exactly a partition of the open list by the
exit condition, with the closed images appended in scan order. -/
def next (p : Params) (rsi price : ℚ) (now : ℤ) (s : EngineState) : EngineState :=
  let o2 := scanList p rsi price now s
  let positions_to_close := o2.filter (fun pos => exitCond p rsi pos)
  { open_positions := o2.filter (fun pos => ! exitCond p rsi pos)
    closed_positions :=
      s.closed_positions ++ positions_to_close.map (closePos rsi price now) }

/-- The list of positions newly closed by one call of `next`: the suffix
that the call appended to `closed_positions` (the spec's
"sequence of newly-closed Positions" returned by `process_bar`). -/
def newlyClosed (p : Params) (rsi price : ℚ) (now : ℤ) (s : EngineState) : List Position :=
  (next p rsi price now s).closed_positions.drop s.closed_positions.length

/-- The entries appended by the two entry steps of one `next` call, in
append order. -/
def entriesList (p : Params) (rsi price : ℚ) (now : ℤ) : List Position :=
  (if rsi < p.buy_rsi then [mkEntry Side.long rsi price now] else []) ++
  (if rsi > p.sell_rsi then [mkEntry Side.short rsi price now] else [])

theorem scanList_eq (p : Params) (rsi price : ℚ) (now : ℤ) (s : EngineState) :
    scanList p rsi price now s = s.open_positions ++ entriesList p rsi price now := by
  unfold scanList entriesList
  by_cases hb : rsi < p.buy_rsi <;> by_cases hs : rsi > p.sell_rsi <;> simp [hb, hs]

theorem next_open_eq (p : Params) (rsi price : ℚ) (now : ℤ) (s : EngineState) :
    (next p rsi price now s).open_positions =
      (scanList p rsi price now s).filter (fun pos => ! exitCond p rsi pos) := rfl

theorem next_closed_eq (p : Params) (rsi price : ℚ) (now : ℤ) (s : EngineState) :
    (next p rsi price now s).closed_positions =
      s.closed_positions ++
        ((scanList p rsi price now s).filter
          (fun pos => exitCond p rsi pos)).map (closePos rsi price now) := rfl

theorem newlyClosed_eq (p : Params) (rsi price : ℚ) (now : ℤ) (s : EngineState) :
    newlyClosed p rsi price now s =
      ((scanList p rsi price now s).filter
        (fun pos => exitCond p rsi pos)).map (closePos rsi price now) := by
  simp [newlyClosed, next_closed_eq, List.drop_left]

/-- C1: entries are evaluated before the exit scan and the scan covers
positions opened in the same call: whenever the bar's indicator value
satisfies both the long-entry condition (`rsi < buy_rsi`) and the long-exit
condition (`rsi > exit_buy_rsi`), the long position opened on this bar
appears, already closed, in this same bar's newly-closed list. -/
theorem c1_same_bar_open_and_close (p : Params) (rsi price : ℚ) (now : ℤ)
    (s : EngineState) (hbuy : rsi < p.buy_rsi) (hexit : rsi > p.exit_buy_rsi) :
    closePos rsi price now (mkEntry Side.long rsi price now) ∈
      newlyClosed p rsi price now s := by
  rw [newlyClosed_eq]
  refine List.mem_map_of_mem _ (List.mem_filter.mpr ⟨?_, ?_⟩)
  · rw [scanList_eq]
    refine List.mem_append_right _ ?_
    unfold entriesList
    exact List.mem_append_left _ (by simp [hbuy])
  · simp [exitCond, mkEntry, hexit]

theorem c1_witness :
    ((35 : ℚ) < (50 : ℚ) ∧ (35 : ℚ) > (20 : ℚ)) ∧
      closePos 35 101 7 (mkEntry Side.long 35 101 7) ∈
        newlyClosed { buy_rsi := 50, sell_rsi := 90, exit_buy_rsi := 20,
                      exit_sell_rsi := 10 } 35 101 7 ⟨[], []⟩ :=
  ⟨⟨by norm_num, by norm_num⟩,
    c1_same_bar_open_and_close _ 35 101 7 ⟨[], []⟩ (by norm_num) (by norm_num)⟩

/-- C2: every position closed by a call of `next` records the closing
bar's close price as `exit_price` and its timestamp as `exit_time`, and its
realized pnl is `exit_price - entry_price` for a long and
`entry_price - exit_price` for a short. -/
theorem c2_close_pnl (p : Params) (rsi price : ℚ) (now : ℤ) (s : EngineState)
    (pos : Position) (h : pos ∈ newlyClosed p rsi price now s) :
    pos.exit_price = some price ∧ pos.exit_time = some now ∧
    (pos.side = Side.long → pos.pnl = some (price - pos.entry_price)) ∧
    (pos.side = Side.short → pos.pnl = some (pos.entry_price - price)) := by
  rw [newlyClosed_eq] at h
  obtain ⟨q, _, rfl⟩ := List.mem_map.mp h
  refine ⟨rfl, rfl, ?_, ?_⟩ <;> intro hside <;>
    simp only [closePos] at hside ⊢ <;> simp [hside]

theorem c2_witness :
    closePos 80 100 5 (mkEntry Side.long 25 90 1) ∈
        newlyClosed defaultParams 80 100 5 ⟨[mkEntry Side.long 25 90 1], []⟩ ∧
      ((closePos 80 100 5 (mkEntry Side.long 25 90 1)).exit_price = some 100 ∧
       (closePos 80 100 5 (mkEntry Side.long 25 90 1)).exit_time = some 5 ∧
       ((closePos 80 100 5 (mkEntry Side.long 25 90 1)).side = Side.long →
         (closePos 80 100 5 (mkEntry Side.long 25 90 1)).pnl =
           some (100 - (closePos 80 100 5 (mkEntry Side.long 25 90 1)).entry_price)) ∧
       ((closePos 80 100 5 (mkEntry Side.long 25 90 1)).side = Side.short →
         (closePos 80 100 5 (mkEntry Side.long 25 90 1)).pnl =
           some ((closePos 80 100 5 (mkEntry Side.long 25 90 1)).entry_price - 100))) :=
  have hmem : closePos 80 100 5 (mkEntry Side.long 25 90 1) ∈
      newlyClosed defaultParams 80 100 5 ⟨[mkEntry Side.long 25 90 1], []⟩ := by
    rw [show newlyClosed defaultParams 80 100 5 ⟨[mkEntry Side.long 25 90 1], []⟩ =
        [closePos 80 100 5 (mkEntry Side.long 25 90 1)] from rfl]
    exact List.mem_singleton.mpr rfl
  ⟨hmem, c2_close_pnl defaultParams 80 100 5 ⟨[mkEntry Side.long 25 90 1], []⟩
    (closePos 80 100 5 (mkEntry Side.long 25 90 1)) hmem⟩

/-- C10: a bar that triggers no entry condition and no exit condition for
the positions currently open changes nothing: the engine state after the
call equals the state before it, and no newly-closed positions are
emitted. -/
theorem c10_quiescent_bar (p : Params) (rsi price : ℚ) (now : ℤ) (s : EngineState)
    (hb : ¬ rsi < p.buy_rsi) (hs : ¬ rsi > p.sell_rsi)
    (hlong : ∀ pos ∈ s.open_positions, pos.side = Side.long → ¬ rsi > p.exit_buy_rsi)
    (hshort : ∀ pos ∈ s.open_positions, pos.side = Side.short → ¬ rsi < p.exit_sell_rsi) :
    next p rsi price now s = s ∧ newlyClosed p rsi price now s = [] := by
  have hscan : scanList p rsi price now s = s.open_positions := by
    unfold scanList
    simp [hb, hs]
  have hc : ∀ pos ∈ s.open_positions, exitCond p rsi pos = false := by
    intro pos hp
    unfold exitCond
    cases hside : pos.side
    · simp [hside, hlong pos hp hside]
    · simp [hside, hshort pos hp hside]
  have hfilterKeep : s.open_positions.filter (fun pos => ! exitCond p rsi pos) =
      s.open_positions :=
    List.filter_eq_self.mpr (fun pos hp => by simp [hc pos hp])
  have hfilterDrop : s.open_positions.filter (fun pos => exitCond p rsi pos) = [] :=
    List.filter_eq_nil_iff.mpr (fun pos hp => by simp [hc pos hp])
  constructor
  · cases s with
    | mk o cl =>
        simp only [next, hscan] at *
        simp [hfilterKeep, hfilterDrop]
  · rw [newlyClosed_eq, hscan, hfilterDrop]
    rfl

theorem c10_witness :
    (¬ (50 : ℚ) < defaultParams.buy_rsi ∧ ¬ (50 : ℚ) > defaultParams.sell_rsi) ∧
      (next defaultParams 50 100 7
          ⟨[mkEntry Side.long 25 90 1, mkEntry Side.short 80 95 2],
           [closePos 75 92 3 (mkEntry Side.long 20 88 1)]⟩ =
        ⟨[mkEntry Side.long 25 90 1, mkEntry Side.short 80 95 2],
         [closePos 75 92 3 (mkEntry Side.long 20 88 1)]⟩ ∧
       newlyClosed defaultParams 50 100 7
          ⟨[mkEntry Side.long 25 90 1, mkEntry Side.short 80 95 2],
           [closePos 75 92 3 (mkEntry Side.long 20 88 1)]⟩ = []) :=
  ⟨⟨by norm_num [defaultParams], by norm_num [defaultParams]⟩,
    c10_quiescent_bar defaultParams 50 100 7
      ⟨[mkEntry Side.long 25 90 1, mkEntry Side.short 80 95 2],
       [closePos 75 92 3 (mkEntry Side.long 20 88 1)]⟩
      (by norm_num [defaultParams]) (by norm_num [defaultParams])
      (by decide) (by decide)⟩

/-- C7 counterexample: the engine performs no bar validation at all.  A bar
whose timestamp 3 precedes the entry time 5 of an already-open position
(non-monotonic input) is processed by the ordinary entry/exit rules — here
it opens a fresh long — rather than failing: `next` is a total function
with no `DataError` outcome, and processing continues past the malformed
bar. -/
theorem c7_counterexample :
    next defaultParams 20 90 3 ⟨[mkEntry Side.long 25 100 5], []⟩ =
      ⟨[mkEntry Side.long 25 100 5, mkEntry Side.long 20 90 3], []⟩ := by
  decide

/-- C7 amended: the engine applies the same entry/exit logic to every bar,
with no timestamp or price validation: even when the bar's timestamp `now`
precedes the entry time of a position already open (a non-monotonic,
malformed stream), a bar satisfying the long-entry condition still opens a
long position (which stays open when its exit condition fails), and no
failure occurs. -/
theorem c7_no_bar_validation (p : Params) (rsi price : ℚ) (now : ℤ) (s : EngineState)
    (pos : Position) (_hpos : pos ∈ s.open_positions) (_hmono : now < pos.entry_time)
    (hbuy : rsi < p.buy_rsi) (hstay : ¬ rsi > p.exit_buy_rsi) :
    mkEntry Side.long rsi price now ∈ (next p rsi price now s).open_positions := by
  rw [next_open_eq]
  refine List.mem_filter.mpr ⟨?_, ?_⟩
  · rw [scanList_eq]
    refine List.mem_append_right _ ?_
    unfold entriesList
    exact List.mem_append_left _ (by simp [hbuy])
  · simp [exitCond, mkEntry, hstay]

theorem c7_witness :
    (mkEntry Side.long 25 100 5 ∈
        (⟨[mkEntry Side.long 25 100 5], []⟩ : EngineState).open_positions ∧
      (3 : ℤ) < (mkEntry Side.long 25 100 5).entry_time ∧
      (20 : ℚ) < defaultParams.buy_rsi ∧ ¬ (20 : ℚ) > defaultParams.exit_buy_rsi) ∧
      mkEntry Side.long 20 90 3 ∈
        (next defaultParams 20 90 3 ⟨[mkEntry Side.long 25 100 5], []⟩).open_positions :=
  ⟨⟨by decide, by decide, by norm_num [defaultParams], by norm_num [defaultParams]⟩,
    c7_no_bar_validation defaultParams 20 90 3 ⟨[mkEntry Side.long 25 100 5], []⟩
      (mkEntry Side.long 25 100 5) (by decide) (by decide)
      (by norm_num [defaultParams]) (by norm_num [defaultParams])⟩

/-- Number of positions of a given side whose entry timestamp is `now`:
the measure used to state that a bar opens exactly one new position. -/
def countNew (side : Side) (now : ℤ) (l : List Position) : ℕ :=
  l.countP (fun pos => pos.side == side && pos.entry_time == now)

theorem countP_filter_add {α : Type} (l : List α) (P q : α → Bool) :
    (l.filter q).countP P + (l.filter (fun a => ! q a)).countP P = l.countP P := by
  induction l with
  | nil => simp
  | cons a l ih =>
      by_cases hq : q a = true <;> by_cases hp : P a = true <;>
        simp [List.filter_cons, hq, hp, List.countP_cons, ← ih] <;> omega

theorem countNew_next (side : Side) (p : Params) (rsi price : ℚ) (now : ℤ)
    (s : EngineState) :
    countNew side now ((next p rsi price now s).open_positions ++
        (next p rsi price now s).closed_positions) =
      countNew side now (scanList p rsi price now s) +
        countNew side now s.closed_positions := by
  unfold countNew
  rw [List.countP_append, next_open_eq, next_closed_eq, List.countP_append,
    List.countP_map]
  have hcomp : ((fun pos => pos.side == side && pos.entry_time == now) ∘
      closePos rsi price now) = (fun pos => pos.side == side && pos.entry_time == now) :=
    funext fun q => rfl
  rw [hcomp]
  have hsplit := countP_filter_add (scanList p rsi price now s)
    (fun pos => pos.side == side && pos.entry_time == now)
    (fun pos => exitCond p rsi pos)
  omega

theorem countNew_append (side : Side) (now : ℤ) (l1 l2 : List Position) :
    countNew side now (l1 ++ l2) = countNew side now l1 + countNew side now l2 := by
  unfold countNew
  rw [List.countP_append]

theorem countNew_zero_of_fresh (side : Side) (now : ℤ) (l : List Position)
    (h : ∀ pos ∈ l, pos.entry_time ≠ now) : countNew side now l = 0 :=
  List.countP_eq_zero.mpr fun pos hp => by
    simp only [Bool.and_eq_true, beq_iff_eq]
    exact fun hc => h pos hp hc.2

theorem countNew_entriesList_long (p : Params) (rsi price : ℚ) (now : ℤ) :
    countNew Side.long now (entriesList p rsi price now) =
      (if rsi < p.buy_rsi then 1 else 0) := by
  unfold countNew entriesList
  by_cases hb : rsi < p.buy_rsi <;> by_cases hs : rsi > p.sell_rsi <;>
    simp [hb, hs, mkEntry, List.countP_cons, List.countP_append]

theorem countNew_entriesList_short (p : Params) (rsi price : ℚ) (now : ℤ) :
    countNew Side.short now (entriesList p rsi price now) =
      (if rsi > p.sell_rsi then 1 else 0) := by
  unfold countNew entriesList
  by_cases hb : rsi < p.buy_rsi <;> by_cases hs : rsi > p.sell_rsi <;>
    simp [hb, hs, mkEntry, List.countP_cons, List.countP_append]

theorem mem_scanList_entry_price (p : Params) (rsi price : ℚ) (now : ℤ)
    (s : EngineState) (q : Position) (hq : q ∈ scanList p rsi price now s)
    (hfresh : ∀ pos ∈ s.open_positions, pos.entry_time ≠ now)
    (ht : q.entry_time = now) : q.entry_price = price := by
  rw [scanList_eq] at hq
  rcases List.mem_append.mp hq with h | h
  · exact absurd ht (hfresh q h)
  · unfold entriesList at h
    rcases List.mem_append.mp h with h | h
    · by_cases hb : rsi < p.buy_rsi
      · rw [if_pos hb] at h
        have hq' : q = mkEntry Side.long rsi price now := List.mem_singleton.mp h
        simp [hq', mkEntry]
      · rw [if_neg hb] at h
        exact absurd h (List.not_mem_nil q)
    · by_cases hs : rsi > p.sell_rsi
      · rw [if_pos hs] at h
        have hq' : q = mkEntry Side.short rsi price now := List.mem_singleton.mp h
        simp [hq', mkEntry]
      · rw [if_neg hs] at h
        exact absurd h (List.not_mem_nil q)

/-- C3: if the bar's indicator value is below `buy_rsi`, exactly one new
long position is opened on that bar, regardless of how many positions of
either side are already open; symmetrically, if it exceeds `sell_rsi`,
exactly one new short is opened; the two conditions act independently on
the same bar; and every position opened on this bar is opened at the bar's
close price.  Freshness hypothesis: no pre-existing position carries this
bar's timestamp, so "new" is measured by `entry_time = now`. -/
theorem c3_pyramiding_entry (p : Params) (rsi price : ℚ) (now : ℤ) (s : EngineState)
    (hfresh : ∀ pos ∈ s.open_positions ++ s.closed_positions, pos.entry_time ≠ now) :
    countNew Side.long now ((next p rsi price now s).open_positions ++
        (next p rsi price now s).closed_positions) =
      (if rsi < p.buy_rsi then 1 else 0) ∧
    countNew Side.short now ((next p rsi price now s).open_positions ++
        (next p rsi price now s).closed_positions) =
      (if rsi > p.sell_rsi then 1 else 0) ∧
    ∀ pos ∈ (next p rsi price now s).open_positions ++
        (next p rsi price now s).closed_positions,
      pos.entry_time = now → pos.entry_price = price := by
  have hfo : ∀ pos ∈ s.open_positions, pos.entry_time ≠ now :=
    fun pos h => hfresh pos (List.mem_append_left _ h)
  have hfc : ∀ pos ∈ s.closed_positions, pos.entry_time ≠ now :=
    fun pos h => hfresh pos (List.mem_append_right _ h)
  refine ⟨?_, ?_, ?_⟩
  · rw [countNew_next, scanList_eq, countNew_append,
      countNew_zero_of_fresh Side.long now _ hfo,
      countNew_zero_of_fresh Side.long now _ hfc,
      countNew_entriesList_long]
    simp
  · rw [countNew_next, scanList_eq, countNew_append,
      countNew_zero_of_fresh Side.short now _ hfo,
      countNew_zero_of_fresh Side.short now _ hfc,
      countNew_entriesList_short]
    simp
  · intro pos hmem ht
    rcases List.mem_append.mp hmem with h | h
    · rw [next_open_eq] at h
      exact mem_scanList_entry_price p rsi price now s pos
        (List.mem_of_mem_filter h) hfo ht
    · rw [next_closed_eq] at h
      rcases List.mem_append.mp h with h | h
      · exact absurd ht (hfc pos h)
      · obtain ⟨q, hq, rfl⟩ := List.mem_map.mp h
        have hqt : q.entry_time = now := ht
        have := mem_scanList_entry_price p rsi price now s q
          (List.mem_of_mem_filter hq) hfo hqt
        exact this

theorem c3_witness :
    (∀ pos ∈ (⟨[mkEntry Side.long 25 90 1], []⟩ : EngineState).open_positions ++
        (⟨[mkEntry Side.long 25 90 1], []⟩ : EngineState).closed_positions,
      pos.entry_time ≠ (9 : ℤ)) ∧
      (countNew Side.long 9
          ((next defaultParams 20 100 9
              ⟨[mkEntry Side.long 25 90 1], []⟩).open_positions ++
            (next defaultParams 20 100 9
              ⟨[mkEntry Side.long 25 90 1], []⟩).closed_positions) =
        (if (20 : ℚ) < defaultParams.buy_rsi then 1 else 0) ∧
      countNew Side.short 9
          ((next defaultParams 20 100 9
              ⟨[mkEntry Side.long 25 90 1], []⟩).open_positions ++
            (next defaultParams 20 100 9
              ⟨[mkEntry Side.long 25 90 1], []⟩).closed_positions) =
        (if (20 : ℚ) > defaultParams.sell_rsi then 1 else 0) ∧
      ∀ pos ∈ (next defaultParams 20 100 9
            ⟨[mkEntry Side.long 25 90 1], []⟩).open_positions ++
          (next defaultParams 20 100 9
            ⟨[mkEntry Side.long 25 90 1], []⟩).closed_positions,
        pos.entry_time = 9 → pos.entry_price = 100) :=
  have h : ∀ pos ∈ (⟨[mkEntry Side.long 25 90 1], []⟩ : EngineState).open_positions ++
      (⟨[mkEntry Side.long 25 90 1], []⟩ : EngineState).closed_positions,
      pos.entry_time ≠ (9 : ℤ) := by decide
  ⟨h, c3_pyramiding_entry defaultParams 20 100 9 ⟨[mkEntry Side.long 25 90 1], []⟩ h⟩

/-! ### Metrics stage: `compute_sharpe_metrics` of `src/data_utils.py` -/

/-- One row of the trade-ledger DataFrame handed to
`compute_sharpe_metrics`: the columns the function reads (`exit_time`,
`pnl`) plus the derived `exit_date` column it writes into the caller's
frame at line 220 of `src/data_utils.py` (`none` while absent).
`exit_time` counts minutes from an epoch. -/
structure Trade where
  exit_time : ℤ
  pnl : ℚ
  exit_date : Option ℤ := none
deriving DecidableEq, Repr

/-- Calendar date of a trade's exit, as a day number:
`pd.to_datetime(df["exit_time"]).dt.date` truncates the time-of-day, i.e.
floor-divides the minute count by 1440 (minutes per day). -/
def dayOf (t : Trade) : ℤ := Int.fdiv t.exit_time 1440

/-- The in-place column write `df["exit_date"] = ...` (line 220) applied
to one row. -/
def setExitDate (t : Trade) : Trade := { t with exit_date := some (dayOf t) }

/-- `daily_pnl = df.groupby("exit_date")["pnl"].sum()` evaluated at one
date: the summed pnl of the trades exiting on that date. -/
def dailyPnl (df : List Trade) (d : ℤ) : ℚ :=
  ((df.filter (fun t => dayOf t == d)).map Trade.pnl).sum

/-- Whether some trade of the ledger exits on date `d` (whether `d` is one
of the groupby keys, i.e. present in the raw daily-pnl index). -/
def hasTradeOn (df : List Trade) (d : ℤ) : Bool :=
  df.any (fun t => dayOf t == d)

/-- `daily_returns.index.min()`: earliest exit date of the ledger
(junk value 0 on an empty ledger, where the source's index minimum is NaN
and is never meaningfully used). -/
def minExitDate (df : List Trade) : ℤ :=
  match df with
  | [] => 0
  | t :: ts => ts.foldl (fun m u => min m (dayOf u)) (dayOf t)

/-- `daily_returns.index.max()`: latest exit date of the ledger. -/
def maxExitDate (df : List Trade) : ℤ :=
  match df with
  | [] => 0
  | t :: ts => ts.foldl (fun m u => max m (dayOf u)) (dayOf t)

/-- Length of `pd.date_range(start=min, end=max, freq="D")`: one entry per
calendar day from the earliest to the latest exit date, inclusive. -/
def numDays (df : List Trade) : ℕ :=
  (maxExitDate df - minExitDate df).toNat + 1

/-- The filled daily-return series (lines 221–239 of `src/data_utils.py`):
group pnl by exit date, divide by `start_cash`, reindex over the
continuous daily calendar, and fill every date absent from the groupby
index with `0.0`. -/
def filledSeries (df : List Trade) (start_cash : ℚ) : List ℚ :=
  (List.range (numDays df)).map (fun i : ℕ =>
    if hasTradeOn df (minExitDate df + (i : ℤ)) then
      dailyPnl df (minExitDate df + (i : ℤ)) / start_cash
    else 0)

/-- `series.mean()`: arithmetic mean. -/
def meanQ (xs : List ℚ) : ℚ := xs.sum / (xs.length : ℚ)

/-- The sample variance with N−1 denominator, the square of what
`series.std()` (default `ddof=1`) computes for two or more samples. -/
def sampleVar (xs : List ℚ) : ℚ :=
  ((xs.map (fun x => (x - meanQ xs) * (x - meanQ xs))).sum) / ((xs.length : ℚ) - 1)

/-- Value domain of the float-valued metrics: a finite real, `+∞`, `-∞`,
or NaN — exactly the IEEE-754 outcomes `compute_sharpe_metrics` can
produce once its divisions are taken into account. -/
inductive FVal where
  | val : ℝ → FVal
  | top : FVal
  | bot : FVal
  | nan : FVal

/-- `pandas.Series.std()` with the default `ddof=1`: NaN for fewer than
two samples, otherwise the sample standard deviation with N−1
denominator. -/
noncomputable def stdF (xs : List ℚ) : FVal :=
  if xs.length ≤ 1 then FVal.nan else FVal.val (Real.sqrt (sampleVar xs))

/-- Multiplication by `np.sqrt(252)` (a positive finite float): finite
values scale, infinities keep their sign, NaN propagates. -/
noncomputable def annualizeF : FVal → FVal
  | FVal.val x => FVal.val (x * Real.sqrt 252)
  | FVal.top => FVal.top
  | FVal.bot => FVal.bot
  | FVal.nan => FVal.nan

/-- `(daily_returns_series.mean() - daily_rf) / daily_returns_series.std()`
(line 246) under IEEE-754 float semantics: a NaN standard deviation makes
the quotient NaN; a zero standard deviation makes it the numerator's sign
as an infinity (NaN when the numerator is zero as well); otherwise it is
the ordinary quotient. -/
noncomputable def dailySharpeF (xs : List ℚ) (daily_rf : ℚ) : FVal :=
  if xs.length ≤ 1 then FVal.nan
  else if sampleVar xs = 0 then
    (if meanQ xs - daily_rf > 0 then FVal.top
     else if meanQ xs - daily_rf < 0 then FVal.bot
     else FVal.nan)
  else FVal.val (((meanQ xs - daily_rf : ℚ) : ℝ) / Real.sqrt (sampleVar xs))

/-- Failure outcomes of the metrics stage.  `valueError` models the
untyped library exception the empty-ledger path actually raises
(`pd.date_range` refuses NaT endpoints, which is what the minimum of an
empty index produces); `emptyLedgerError` and `degenerateSeriesError` are
the typed conditions of the spec's error taxonomy (§7), produced by no
code path. -/
inductive MetricsError where
  | valueError : MetricsError
  | emptyLedgerError : MetricsError
  | degenerateSeriesError : MetricsError
deriving DecidableEq, Repr

/-- The tuple `compute_sharpe_metrics` returns (lines 251). -/
structure SharpeResult where
  daily_returns_complete : List ℚ
  annual_vol : FVal
  annual_sharpe : FVal
  mean_daily_return : ℚ

/-- `compute_sharpe_metrics(df, start_cash, risk_free_rate)` from
`src/data_utils.py` (lines 202–251).  The function first writes the
derived `exit_date` column into the caller's DataFrame (line 220, an
in-place mutation; the mutated frame is the first component here), then
builds the filled daily-return series and the metrics.  On an empty ledger
the filled series cannot be built and the call dies with the untyped
library error. -/
noncomputable def compute_sharpe_metrics (df : List Trade) (start_cash : ℚ)
    (risk_free_rate : ℚ) : List Trade × Except MetricsError SharpeResult :=
  let df2 := df.map setExitDate
  if df2.isEmpty then (df2, Except.error MetricsError.valueError)
  else
    let series := filledSeries df2 start_cash
    let daily_rf := risk_free_rate / 252
    (df2, Except.ok
      { daily_returns_complete := series
        annual_vol := annualizeF (stdF series)
        annual_sharpe := annualizeF (dailySharpeF series daily_rf)
        mean_daily_return := meanQ series })

theorem dayOf_setExitDate (t : Trade) : dayOf (setExitDate t) = dayOf t := rfl

theorem minExitDate_map (df : List Trade) :
    minExitDate (df.map setExitDate) = minExitDate df := by
  cases df with
  | nil => rfl
  | cons t ts =>
      show List.foldl (fun m u => min m (dayOf u)) (dayOf (setExitDate t))
          (ts.map setExitDate) = List.foldl (fun m u => min m (dayOf u)) (dayOf t) ts
      rw [List.foldl_map]
      rfl

theorem maxExitDate_map (df : List Trade) :
    maxExitDate (df.map setExitDate) = maxExitDate df := by
  cases df with
  | nil => rfl
  | cons t ts =>
      show List.foldl (fun m u => max m (dayOf u)) (dayOf (setExitDate t))
          (ts.map setExitDate) = List.foldl (fun m u => max m (dayOf u)) (dayOf t) ts
      rw [List.foldl_map]
      rfl

theorem dailyPnl_map (df : List Trade) (d : ℤ) :
    dailyPnl (df.map setExitDate) d = dailyPnl df d := by
  unfold dailyPnl
  rw [List.filter_map, List.map_map]
  rfl

theorem hasTradeOn_map (df : List Trade) (d : ℤ) :
    hasTradeOn (df.map setExitDate) d = hasTradeOn df d := by
  unfold hasTradeOn
  rw [List.any_map]
  rfl

theorem filledSeries_map (df : List Trade) (start_cash : ℚ) :
    filledSeries (df.map setExitDate) start_cash = filledSeries df start_cash := by
  unfold filledSeries numDays
  rw [minExitDate_map, maxExitDate_map]
  exact List.map_congr_left (fun i _ => by
    rw [hasTradeOn_map, dailyPnl_map])

theorem compute_ok (df : List Trade) (start_cash risk_free_rate : ℚ) (hdf : df ≠ []) :
    (compute_sharpe_metrics df start_cash risk_free_rate).2 = Except.ok
      { daily_returns_complete := filledSeries df start_cash
        annual_vol := annualizeF (stdF (filledSeries df start_cash))
        annual_sharpe :=
          annualizeF (dailySharpeF (filledSeries df start_cash) (risk_free_rate / 252))
        mean_daily_return := meanQ (filledSeries df start_cash) } := by
  unfold compute_sharpe_metrics
  have hne : (df.map setExitDate).isEmpty = false :=
    List.isEmpty_eq_false.mpr (by simpa using hdf)
  simp [hne, filledSeries_map]

/-- C6 counterexample: on the empty ledger the metrics call dies with the
untyped library `ValueError` (`pd.date_range` refuses the NaT endpoints an
empty index minimum produces) — not with a typed `EmptyLedgerError`. -/
theorem c6_counterexample :
    (compute_sharpe_metrics [] 10000 (1 / 2500)).2 =
        Except.error MetricsError.valueError ∧
      (compute_sharpe_metrics [] 10000 (1 / 2500)).2 ≠
        Except.error MetricsError.emptyLedgerError := by
  constructor
  · rfl
  · rw [show (compute_sharpe_metrics [] 10000 (1 / 2500)).2 =
        Except.error MetricsError.valueError from rfl]
    simp

/-- C6 amended: a metrics call on a ledger with zero closed trades does
fail before returning any values — but with the untyped library fault, not
a typed `EmptyLedgerError`. -/
theorem c6_empty_ledger_untyped (start_cash risk_free_rate : ℚ) :
    (compute_sharpe_metrics [] start_cash risk_free_rate).2 =
      Except.error MetricsError.valueError := rfl

/-- C9 counterexample: the metrics call is not read-only on the ledger: it
hands back a frame with an `exit_date` column the caller's ledger did not
have. -/
theorem c9_counterexample :
    (compute_sharpe_metrics [{ exit_time := 2000, pnl := 100 }] 10000 (1 / 2500)).1 ≠
      [{ exit_time := 2000, pnl := 100 }] := by
  rw [show (compute_sharpe_metrics [{ exit_time := 2000, pnl := 100 }] 10000
        (1 / 2500)).1 =
      [{ exit_time := 2000, pnl := 100, exit_date := some 1 }] from rfl]
  simp

/-- C9 amended: the aggregator mutates the ledger, but only by writing the
derived `exit_date` column into every row (line 220 of
`src/data_utils.py`); the row set, their order, and the `exit_time` and
`pnl` columns are unchanged. -/
theorem c9_mutates_only_exit_date (df : List Trade) (start_cash risk_free_rate : ℚ) :
    (compute_sharpe_metrics df start_cash risk_free_rate).1 = df.map setExitDate := by
  unfold compute_sharpe_metrics
  by_cases h : (df.map setExitDate).isEmpty = true <;> simp [h]

/-- C5 counterexample: a single-trade ledger yields a one-day series whose
`std(ddof=1)` is NaN; the computation does not signal any degenerate-series
condition — it returns normally, with a NaN annualised Sharpe. -/
theorem c5_counterexample :
    Except.map SharpeResult.annual_sharpe
        (compute_sharpe_metrics [{ exit_time := 2000, pnl := 100 }] 10000
          (1 / 2500)).2 =
      Except.ok FVal.nan := by
  rw [compute_ok [{ exit_time := 2000, pnl := 100 }] 10000 (1 / 2500) (by simp)]
  have hlen : (filledSeries [{ exit_time := 2000, pnl := 100 }] 10000).length = 1 := rfl
  simp only [Except.map]
  show Except.ok (annualizeF (dailySharpeF
    (filledSeries [{ exit_time := 2000, pnl := 100 }] 10000) (1 / 2500 / 252))) =
    Except.ok FVal.nan
  unfold dailySharpeF
  rw [if_pos (le_of_eq hlen)]
  rfl

/-- C5 amended: on a degenerate filled daily-return series — a single-day
series (NaN standard deviation) or a longer zero-variance series (zero
standard deviation) — the computation does not fail: it returns normally,
and the annualised Sharpe it hands back is never a finite value; it is NaN
or a signed infinity, silently coerced rather than signalled. -/
theorem c5_degenerate_returns_silently (df : List Trade)
    (start_cash risk_free_rate : ℚ) (hdf : df ≠ [])
    (hdeg : (filledSeries df start_cash).length ≤ 1 ∨
      sampleVar (filledSeries df start_cash) = 0) :
    ∃ res, (compute_sharpe_metrics df start_cash risk_free_rate).2 = Except.ok res ∧
      ∀ x : ℝ, res.annual_sharpe ≠ FVal.val x := by
  refine ⟨_, compute_ok df start_cash risk_free_rate hdf, ?_⟩
  intro x
  show annualizeF (dailySharpeF (filledSeries df start_cash)
    (risk_free_rate / 252)) ≠ FVal.val x
  have hnotval : ∀ v : FVal, (v = FVal.nan ∨ v = FVal.top ∨ v = FVal.bot) →
      annualizeF v ≠ FVal.val x := by
    rintro v (rfl | rfl | rfl) <;> simp [annualizeF]
  apply hnotval
  unfold dailySharpeF
  by_cases hl : (filledSeries df start_cash).length ≤ 1
  · rw [if_pos hl]
    exact Or.inl rfl
  · have hvar : sampleVar (filledSeries df start_cash) = 0 := hdeg.resolve_left hl
    rw [if_neg hl, if_pos hvar]
    by_cases h1 : meanQ (filledSeries df start_cash) - risk_free_rate / 252 > 0
    · rw [if_pos h1]
      exact Or.inr (Or.inl rfl)
    · rw [if_neg h1]
      by_cases h2 : meanQ (filledSeries df start_cash) - risk_free_rate / 252 < 0
      · rw [if_pos h2]
        exact Or.inr (Or.inr rfl)
      · rw [if_neg h2]
        exact Or.inl rfl

theorem c5_witness :
    (([{ exit_time := 2000, pnl := 100 }] : List Trade) ≠ [] ∧
        ((filledSeries [{ exit_time := 2000, pnl := 100 }] 10000).length ≤ 1 ∨
          sampleVar (filledSeries [{ exit_time := 2000, pnl := 100 }] 10000) = 0)) ∧
      ∃ res, (compute_sharpe_metrics [{ exit_time := 2000, pnl := 100 }] 10000
          (1 / 2500)).2 = Except.ok res ∧
        ∀ x : ℝ, res.annual_sharpe ≠ FVal.val x :=
  have hlen : (filledSeries [{ exit_time := 2000, pnl := 100 }] 10000).length = 1 := rfl
  ⟨⟨by simp, Or.inl (le_of_eq hlen)⟩,
    c5_degenerate_returns_silently [{ exit_time := 2000, pnl := 100 }] 10000 (1 / 2500)
      (by simp) (Or.inl (le_of_eq hlen))⟩

/-- C4: for every non-empty ledger the produced daily-return series has
exactly `(max exit date − min exit date) + 1` entries, one per calendar
day from the earliest to the latest exit date inclusive; a day on which no
trade closed has return exactly 0, and a day on which trades closed has
return the summed pnl of that day divided by `start_cash`. -/
theorem c4_reindexing (df : List Trade) (start_cash risk_free_rate : ℚ)
    (hdf : df ≠ []) :
    ∃ res, (compute_sharpe_metrics df start_cash risk_free_rate).2 = Except.ok res ∧
      res.daily_returns_complete.length =
        (maxExitDate df - minExitDate df).toNat + 1 ∧
      ∀ d : ℤ, minExitDate df ≤ d → d ≤ maxExitDate df →
        ((∀ t ∈ df, dayOf t ≠ d) →
          res.daily_returns_complete.getD (d - minExitDate df).toNat 0 = 0) ∧
        ((∃ t ∈ df, dayOf t = d) →
          res.daily_returns_complete.getD (d - minExitDate df).toNat 0 =
            dailyPnl df d / start_cash) := by
  refine ⟨_, compute_ok df start_cash risk_free_rate hdf, ?_, ?_⟩
  · show (filledSeries df start_cash).length = _
    simp [filledSeries, numDays]
  · intro d hmin hmax
    have hi : (d - minExitDate df).toNat < numDays df := by
      unfold numDays
      omega
    have hiv : minExitDate df + (((d - minExitDate df).toNat : ℕ) : ℤ) = d := by omega
    have hget : (filledSeries df start_cash).getD (d - minExitDate df).toNat 0 =
        (if hasTradeOn df d then dailyPnl df d / start_cash else 0) := by
      unfold filledSeries
      rw [List.getD_eq_getElem?_getD, List.getElem?_map, List.getElem?_range hi]
      simp only [Option.map_some', Option.getD_some]
      rw [hiv]
    constructor
    · intro h0
      have hno : hasTradeOn df d = false := by
        unfold hasTradeOn
        exact List.any_eq_false.mpr (fun t ht => by
          simp only [beq_iff_eq]
          exact h0 t ht)
      show (filledSeries df start_cash).getD (d - minExitDate df).toNat 0 = 0
      rw [hget, hno]
      simp
    · intro ht
      have hyes : hasTradeOn df d = true := by
        unfold hasTradeOn
        rw [List.any_eq_true]
        obtain ⟨t, htm, htd⟩ := ht
        exact ⟨t, htm, by simp [htd]⟩
      show (filledSeries df start_cash).getD (d - minExitDate df).toNat 0 =
        dailyPnl df d / start_cash
      rw [hget, hyes]
      simp

theorem c4_witness :
    (([{ exit_time := 0, pnl := 100 }, { exit_time := 2880, pnl := -40 }] :
        List Trade) ≠ []) ∧
      ∃ res, (compute_sharpe_metrics
          [{ exit_time := 0, pnl := 100 }, { exit_time := 2880, pnl := -40 }]
          10000 (1 / 2500)).2 = Except.ok res ∧
        res.daily_returns_complete.length =
          (maxExitDate [{ exit_time := 0, pnl := 100 },
              { exit_time := 2880, pnl := -40 }] -
            minExitDate [{ exit_time := 0, pnl := 100 },
              { exit_time := 2880, pnl := -40 }]).toNat + 1 ∧
        ∀ d : ℤ,
          minExitDate [{ exit_time := 0, pnl := 100 },
            { exit_time := 2880, pnl := -40 }] ≤ d →
          d ≤ maxExitDate [{ exit_time := 0, pnl := 100 },
            { exit_time := 2880, pnl := -40 }] →
          ((∀ t ∈ ([{ exit_time := 0, pnl := 100 },
              { exit_time := 2880, pnl := -40 }] : List Trade), dayOf t ≠ d) →
            res.daily_returns_complete.getD
              (d - minExitDate [{ exit_time := 0, pnl := 100 },
                { exit_time := 2880, pnl := -40 }]).toNat 0 = 0) ∧
          ((∃ t ∈ ([{ exit_time := 0, pnl := 100 },
              { exit_time := 2880, pnl := -40 }] : List Trade), dayOf t = d) →
            res.daily_returns_complete.getD
              (d - minExitDate [{ exit_time := 0, pnl := 100 },
                { exit_time := 2880, pnl := -40 }]).toNat 0 =
              dailyPnl [{ exit_time := 0, pnl := 100 },
                { exit_time := 2880, pnl := -40 }] d / 10000) :=
  ⟨by simp,
    c4_reindexing [{ exit_time := 0, pnl := 100 }, { exit_time := 2880, pnl := -40 }]
      10000 (1 / 2500) (by simp)⟩

/-- C8: on a non-degenerate filled series (at least two days, nonzero
sample variance) the returned metrics obey the spec formulas: with `σ` the
sample standard deviation (N−1 denominator, i.e. the square root of
`sampleVar`) of the filled series, `annual_vol = σ·√252`,
`annual_sharpe = ((mean − rf/252)/σ)·√252`, and `mean_daily_return` is the
plain arithmetic mean of the filled series, unadjusted by the risk-free
rate. -/
theorem c8_metric_formulas (df : List Trade) (start_cash risk_free_rate : ℚ)
    (hdf : df ≠ [])
    (hn : 2 ≤ (filledSeries df start_cash).length)
    (hv : sampleVar (filledSeries df start_cash) ≠ 0) :
    ∃ res, (compute_sharpe_metrics df start_cash risk_free_rate).2 = Except.ok res ∧
      res.daily_returns_complete = filledSeries df start_cash ∧
      res.annual_vol = FVal.val
        (Real.sqrt (sampleVar (filledSeries df start_cash)) * Real.sqrt 252) ∧
      res.annual_sharpe = FVal.val
        ((((meanQ (filledSeries df start_cash) - risk_free_rate / 252 : ℚ) : ℝ) /
            Real.sqrt (sampleVar (filledSeries df start_cash))) * Real.sqrt 252) ∧
      res.mean_daily_return = meanQ (filledSeries df start_cash) := by
  have h1 : ¬ (filledSeries df start_cash).length ≤ 1 := by omega
  refine ⟨_, compute_ok df start_cash risk_free_rate hdf, rfl, ?_, ?_, rfl⟩
  · show annualizeF (stdF (filledSeries df start_cash)) = _
    unfold stdF
    rw [if_neg h1]
    rfl
  · show annualizeF (dailySharpeF (filledSeries df start_cash)
      (risk_free_rate / 252)) = _
    unfold dailySharpeF
    rw [if_neg h1, if_neg hv]
    rfl

theorem c8_witness :
    (([{ exit_time := 0, pnl := 100 }, { exit_time := 1440, pnl := -40 }] :
          List Trade) ≠ [] ∧
        2 ≤ (filledSeries [{ exit_time := 0, pnl := 100 },
            { exit_time := 1440, pnl := -40 }] 10000).length ∧
        sampleVar (filledSeries [{ exit_time := 0, pnl := 100 },
            { exit_time := 1440, pnl := -40 }] 10000) ≠ 0) ∧
      ∃ res, (compute_sharpe_metrics
          [{ exit_time := 0, pnl := 100 }, { exit_time := 1440, pnl := -40 }]
          10000 (1 / 2500)).2 = Except.ok res ∧
        res.daily_returns_complete = filledSeries
          [{ exit_time := 0, pnl := 100 }, { exit_time := 1440, pnl := -40 }] 10000 ∧
        res.annual_vol = FVal.val
          (Real.sqrt (sampleVar (filledSeries [{ exit_time := 0, pnl := 100 },
              { exit_time := 1440, pnl := -40 }] 10000)) * Real.sqrt 252) ∧
        res.annual_sharpe = FVal.val
          ((((meanQ (filledSeries [{ exit_time := 0, pnl := 100 },
                { exit_time := 1440, pnl := -40 }] 10000) -
              (1 / 2500) / 252 : ℚ) : ℝ) /
              Real.sqrt (sampleVar (filledSeries [{ exit_time := 0, pnl := 100 },
                { exit_time := 1440, pnl := -40 }] 10000))) * Real.sqrt 252) ∧
        res.mean_daily_return = meanQ (filledSeries
          [{ exit_time := 0, pnl := 100 }, { exit_time := 1440, pnl := -40 }] 10000) :=
  have hser : filledSeries [{ exit_time := 0, pnl := 100 },
      { exit_time := 1440, pnl := -40 }] 10000 = [1 / 100, -1 / 250] := by
    have hnum : numDays [({ exit_time := 0, pnl := 100 } : Trade),
        { exit_time := 1440, pnl := -40 }] = 2 := rfl
    have hmin : minExitDate [({ exit_time := 0, pnl := 100 } : Trade),
        { exit_time := 1440, pnl := -40 }] = 0 := rfl
    have hd0 : dayOf { exit_time := 0, pnl := 100 } = 0 := rfl
    have hd1 : dayOf { exit_time := 1440, pnl := -40 } = 1 := rfl
    have hrange : List.range 2 = [0, 1] := rfl
    rw [filledSeries, hnum, hmin, hrange]
    norm_num [hasTradeOn, dailyPnl, hd0, hd1]
  have hn : 2 ≤ (filledSeries [{ exit_time := 0, pnl := 100 },
      { exit_time := 1440, pnl := -40 }] 10000).length := by
    rw [hser]
    norm_num
  have hv : sampleVar (filledSeries [{ exit_time := 0, pnl := 100 },
      { exit_time := 1440, pnl := -40 }] 10000) ≠ 0 := by
    rw [hser]
    norm_num [sampleVar, meanQ]
  ⟨⟨by simp, hn, hv⟩,
    c8_metric_formulas
      [{ exit_time := 0, pnl := 100 }, { exit_time := 1440, pnl := -40 }]
      10000 (1 / 2500) (by simp) hn hv⟩

end Backtest
